import Mathlib

/-!
Verification of the robloxprofiles backend core (src/routes.ts, src/storage.ts,
src/schema.ts) against its natural-language specification.

The embedding models the JavaScript / TypeScript source shallowly:
* JSON documents (axios `response.data`, cached `userData` blobs, response
  bodies built by `res.json`) become the inductive `Json`; JS `undefined`
  (produced by property access misses) and `NaN` are explicit constructors.
* Upstream HTTP calls become `Except JsError Json` oracle values supplied in
  an environment record; a thrown axios error carries an optional
  `response.status` (absent for e.g. Zod validation errors).
* The Drizzle-backed `DatabaseStorage` becomes pure list-passing state.
* Each Express handler becomes a pure function from its oracle environment
  and the store state to (status, body, new state), plus an event trace used
  to state "no upstream call / write ordering" properties.
-/

/-- A JavaScript value as it flows through the routes: JSON documents plus the
`undefined` value produced by property-access misses, and `NaN` numbers.
Numbers are modelled as integers (all numbers manipulated by this program are
ids and counts) together with the distinguished `NaN`. -/
inductive JsNum where
  | nan : JsNum
  | int : Int → JsNum
deriving DecidableEq

inductive Json where
  | null : Json
  | undefined : Json
  | bool : Bool → Json
  | num : JsNum → Json
  | str : String → Json
  | arr : List Json → Json
  | obj : List (String × Json) → Json

namespace Json

/-- Key list of an object literal (the "shape" of a `res.json` body). -/
def keys : Json → List String
  | .obj fs => fs.map Prod.fst
  | _ => []

end Json

/-- Object-field lookup. JSON.parse keeps the last of duplicate keys, and a
missing key reads as `undefined`. -/
def jfLookup (fs : List (String × Json)) (k : String) : Json :=
  ((fs.filter (fun p => p.1 = k)).getLast?).elim Json.undefined Prod.snd

/-- Field access on an arbitrary value, `none` meaning a thrown `TypeError`
(property access on `null` or `undefined`).  Strings and arrays expose their
`length`; other properties of primitives read as `undefined`. -/
def jsMember (j : Json) (k : String) : Option Json :=
  match j with
  | .null => none
  | .undefined => none
  | .obj fs => some (jfLookup fs k)
  | .str s => if k = "length" then some (.num (.int s.length)) else some .undefined
  | .arr xs => if k = "length" then some (.num (.int xs.length)) else some .undefined
  | _ => some .undefined

/-- JS strict equality against the number literal `0` (`x === 0`). -/
def jsStrictEqZero : Json → Bool
  | .num (.int i) => i = 0
  | _ => false

/-- The test `x.length === 0`, `none` meaning a thrown `TypeError`. -/
def jsLenEqZero (j : Json) : Option Bool :=
  (jsMember j "length").map jsStrictEqZero

/-- Index access `x[0]`, `none` meaning a thrown `TypeError`. Strings index to
one-character strings; out-of-range and primitive indexing give `undefined`. -/
def jsIndex0 : Json → Option Json
  | .null => none
  | .undefined => none
  | .str s => some (match s.data with
      | [] => .undefined
      | c :: _ => .str (String.singleton c))
  | .arr [] => some .undefined
  | .arr (x :: _) => some x
  | .obj fs => some (jfLookup fs "0")
  | _ => some .undefined

/-- JS truthiness. -/
def jsTruthy : Json → Bool
  | .null => false
  | .undefined => false
  | .bool b => b
  | .num .nan => false
  | .num (.int i) => ¬ i = 0
  | .str s => ¬ s = ""
  | .arr _ => true
  | .obj _ => true

/-- The comparison `x > 0` as used on a `length` property: numbers compare numerically, any
non-number (`undefined`, `NaN`, …) compares false. -/
def jsGtZero : Json → Bool
  | .num (.int i) => 0 < i
  | _ => false

mutual

/-- The `String(x)` conversion of an array element inside `Array.prototype.join`:
`null` and `undefined` become the empty string. -/
def jsElemStr : Json → String
  | .null => ""
  | .undefined => ""
  | .bool b => cond b "true" "false"
  | .num .nan => "NaN"
  | .num (.int i) => toString i
  | .str s => s
  | .obj _ => "[object Object]"
  | .arr xs => jsJoinArr xs

/-- JS `Array.prototype.toString` = `join(",")`. -/
def jsJoinArr : List Json → String
  | [] => ""
  | [x] => jsElemStr x
  | x :: y :: xs => jsElemStr x ++ "," ++ jsJoinArr (y :: xs)

end

/-- Method call `x.toString()`: throws (`none`) on `null`/`undefined`. -/
def jsToStringVal : Json → Option String
  | .null => none
  | .undefined => none
  | .bool b => some (cond b "true" "false")
  | .num .nan => some "NaN"
  | .num (.int i) => some (toString i)
  | .str s => some s
  | .arr xs => some (jsJoinArr xs)
  | .obj _ => some "[object Object]"

/-! ### JavaScript `parseInt` (ECMA-262, radix argument omitted) -/

/-- White-space characters skipped by `parseInt`. -/
def jsWs (c : Char) : Bool :=
  c = ' ' ∨ c = '\t' ∨ c = '\n' ∨ c = '\r' ∨ c = '\x0b' ∨ c = '\x0c'

def decDigit? (c : Char) : Option Nat :=
  if '0' ≤ c ∧ c ≤ '9' then some (c.toNat - '0'.toNat) else none

def hexDigit? (c : Char) : Option Nat :=
  if '0' ≤ c ∧ c ≤ '9' then some (c.toNat - '0'.toNat)
  else if 'a' ≤ c ∧ c ≤ 'f' then some (c.toNat - 'a'.toNat + 10)
  else if 'A' ≤ c ∧ c ≤ 'F' then some (c.toNat - 'A'.toNat + 10)
  else none

/-- Longest leading run of digits recognised by `f`. -/
def takeDigitVals (f : Char → Option Nat) : List Char → List Nat
  | [] => []
  | c :: cs =>
    match f c with
    | some d => d :: takeDigitVals f cs
    | none => []

def digitsValue (radix : Nat) (ds : List Nat) : Nat :=
  ds.foldl (fun a d => a * radix + d) 0

/-- Drop the optional single sign character. -/
def stripSign (cs : List Char) : List Char :=
  if cs.head? = some '-' ∨ cs.head? = some '+' then cs.tail else cs

/-- The sign factor of `parseInt`. -/
def signFactor (cs : List Char) : Int :=
  if cs.head? = some '-' then -1 else 1

/-- A leading `0x` / `0X` selects radix 16. -/
def isHexPre (cs1 : List Char) : Bool :=
  cs1.take 2 = ['0', 'x'] ∨ cs1.take 2 = ['0', 'X']

/-- JS `parseInt(s)` with the radix argument omitted; `none` is `NaN`.
Per ECMA-262: strip leading white-space, an optional sign, an optional
`0x`/`0X` prefix selecting radix 16, then take the longest digit run. -/
def jsParseInt (s : String) : Option Int :=
  match takeDigitVals
      (if isHexPre (stripSign (s.data.dropWhile jsWs)) then hexDigit? else decDigit?)
      (if isHexPre (stripSign (s.data.dropWhile jsWs)) then
        (stripSign (s.data.dropWhile jsWs)).drop 2
       else stripSign (s.data.dropWhile jsWs)) with
  | [] => none
  | ds => some (signFactor (s.data.dropWhile jsWs) *
      (digitsValue (if isHexPre (stripSign (s.data.dropWhile jsWs)) then 16 else 10)
        ds : Int))

/-- The number `parseInt(s)` evaluates to, as a JS value. -/
def jsParseIntNum (s : String) : JsNum :=
  (jsParseInt s).elim JsNum.nan JsNum.int

/-- Whether `s`, after optional leading white-space and at most one sign character,
does not begin with a decimal digit. -/
def noLeadingDigit (s : String) : Bool :=
  match (stripSign (s.data.dropWhile jsWs)).head? with
  | none => true
  | some d => ¬ ('0' ≤ d ∧ d ≤ '9')

/-- Whether `s` begins (first character) with a decimal digit. -/
def beginsWithDigit (s : String) : Bool :=
  match s.data with
  | [] => false
  | c :: _ => '0' ≤ c ∧ c ≤ '9'

/-! ### src/schema.ts — Zod validators

Each `z.object` schema becomes a function `Json → Except String α`: the
input must be a JSON object, required fields must match their type, optional
fields accept `undefined` (an absent key), `.default(d)` replaces an absent
value by `d`, and `.nullable()` additionally accepts `null`.  Zod rejects
`NaN` for `z.number()`.  Error messages are abbreviations of Zod's. -/

def zString : Json → Except String String
  | .str s => .ok s
  | _ => .error "expected string"

def zNumber : Json → Except String Int
  | .num (.int i) => .ok i
  | _ => .error "expected number"

def zBool : Json → Except String Bool
  | .bool b => .ok b
  | _ => .error "expected boolean"

/-- Zod `.optional()`: an absent (`undefined`) value parses to `none`. -/
def zOpt (f : Json → Except String α) : Json → Except String (Option α)
  | .undefined => .ok none
  | v => (f v).map some

/-- Zod `.optional().default(d)`: an absent value parses to the default. -/
def zOptD (f : Json → Except String α) (d : α) : Json → Except String α
  | .undefined => .ok d
  | v => f v

/-- Zod `z.string().nullable().optional()`. -/
def zNullOptStr : Json → Except String (Option (Option String))
  | .undefined => .ok none
  | .null => .ok (some none)
  | .str s => .ok (some (some s))
  | _ => .error "expected string or null"

/-- Zod `z.array(z.string())`. -/
def zStrArray : Json → Except String (List String)
  | .arr xs => xs.mapM zString
  | _ => .error "expected array"

structure UserStats where
  friends : Int
  followers : Int
  following : Int
deriving DecidableEq

/-- The `stats` sub-object of `robloxUserSchema`. -/
def zStats : Json → Except String UserStats
  | .obj fs => do
    let f ← zNumber (jfLookup fs "friends")
    let fo ← zNumber (jfLookup fs "followers")
    let fg ← zNumber (jfLookup fs "following")
    pure ⟨f, fo, fg⟩
  | _ => .error "expected object"

/-- The output type of `robloxUserSchema.parse`. -/
structure RobloxUser where
  id : Int
  name : String
  displayName : Option String
  description : String
  created : Option String
  isBanned : Bool
  externalAppDisplayName : Option (Option String)
  hasVerifiedBadge : Bool
  previousUsernames : Option (List String)
  stats : Option UserStats

/-- Validator `robloxUserSchema.parse` (schema.ts lines 40–55). -/
def robloxUserParse : Json → Except String RobloxUser
  | .obj fs => do
    let id ← zNumber (jfLookup fs "id")
    let name ← zString (jfLookup fs "name")
    let displayName ← zOpt zString (jfLookup fs "displayName")
    let description ← zOptD zString "" (jfLookup fs "description")
    let created ← zOpt zString (jfLookup fs "created")
    let isBanned ← zOptD zBool false (jfLookup fs "isBanned")
    let ead ← zNullOptStr (jfLookup fs "externalAppDisplayName")
    let hvb ← zOptD zBool false (jfLookup fs "hasVerifiedBadge")
    let prev ← zOpt zStrArray (jfLookup fs "previousUsernames")
    let stats ← zOpt zStats (jfLookup fs "stats")
    pure ⟨id, name, displayName, description, created, isBanned, ead, hvb, prev, stats⟩
  | _ => .error "expected object"

/-- Re-serialization of a parsed user, as `res.json(validatedData)` emits it:
keys in schema-shape order, absent optionals omitted, defaults present. -/
def RobloxUser.toJson (u : RobloxUser) : Json :=
  Json.obj (
    [("id", Json.num (.int u.id)), ("name", Json.str u.name)]
    ++ (match u.displayName with
        | some s => [("displayName", Json.str s)]
        | none => [])
    ++ [("description", Json.str u.description)]
    ++ (match u.created with
        | some s => [("created", Json.str s)]
        | none => [])
    ++ [("isBanned", Json.bool u.isBanned)]
    ++ (match u.externalAppDisplayName with
        | some (some s) => [("externalAppDisplayName", Json.str s)]
        | some none => [("externalAppDisplayName", Json.null)]
        | none => [])
    ++ [("hasVerifiedBadge", Json.bool u.hasVerifiedBadge)]
    ++ (match u.previousUsernames with
        | some l => [("previousUsernames", Json.arr (l.map Json.str))]
        | none => [])
    ++ (match u.stats with
        | some st => [("stats", Json.obj
            [("friends", Json.num (.int st.friends)),
             ("followers", Json.num (.int st.followers)),
             ("following", Json.num (.int st.following))])]
        | none => []))

structure AvatarItem where
  targetId : Option Int
  state : Option String
  imageUrl : String

/-- Validator `robloxAvatarSchema.parse` (schema.ts lines 65–73), returning the `data`
array. -/
def robloxAvatarParse : Json → Except String (List AvatarItem)
  | .obj fs =>
    match jfLookup fs "data" with
    | .arr xs => xs.mapM (fun x =>
        match x with
        | .obj gs => do
          let tid ← zOpt zNumber (jfLookup gs "targetId")
          let st ← zOpt zString (jfLookup gs "state")
          let url ← zString (jfLookup gs "imageUrl")
          pure (⟨tid, st, url⟩ : AvatarItem)
        | _ => .error "expected object")
    | _ => .error "expected array"
  | _ => .error "expected object"

/-- Validator `robloxFriendsCountSchema.parse` (schema.ts lines 61–63). -/
def robloxFriendsCountParse : Json → Except String Int
  | .obj fs => zNumber (jfLookup fs "count")
  | _ => .error "expected object"

/-- Validator `robloxUserStatusSchema.parse` (schema.ts lines 57–59). -/
def robloxUserStatusParse : Json → Except String String
  | .obj fs => zString (jfLookup fs "status")
  | _ => .error "expected object"

/-! ### src/storage.ts — DatabaseStorage over pure list state

The two Drizzle tables become Lean lists; the serial `id` primary keys play
no role in the routes and are omitted.  `db.update(...).set(patch)` applies
only the fields present in the patch (Drizzle skips `undefined` members), so
the insert payload type carries every non-key column as an `Option`. -/

/-- A `search_history` row (schema.ts lines 6–12, without the serial id). -/
structure SearchHistory where
  query : String
  type : String
  timestamp : String
  success : Bool
deriving DecidableEq

/-- A `user_cache` row (schema.ts lines 19–26, without the serial id).
`userData` is a `jsonb` blob; `avatarUrl` is stored as the JS value the route
passed (`null` or a string); `isTerminated` is a nullable boolean column. -/
structure CacheRecord where
  userId : String
  userData : Json
  avatarUrl : Json
  timestamp : String
  isTerminated : Option Bool

/-- An `InsertUserCache` payload: `userId` is the key, every other field is
optional (absent fields are skipped by the partial update). -/
structure InsertUserCache where
  userId : String
  userData : Option Json
  avatarUrl : Option Json
  timestamp : Option String
  isTerminated : Option (Option Bool)

/-- Method `DatabaseStorage.addSearchHistory` (storage.ts lines 24–31): plain insert. -/
def addSearchHistory (hist : List SearchHistory) (e : SearchHistory) :
    List SearchHistory × SearchHistory :=
  (hist ++ [e], e)

/-- Method `DatabaseStorage.getUserCache` (storage.ts lines 41–48): select by the
unique key, first row or `undefined`. -/
def getUserCache (store : List CacheRecord) (userId : String) : Option CacheRecord :=
  store.find? (fun r => r.userId = userId)

/-- One field of a partial `.set`: an absent or `undefined` value leaves the
stored column unchanged. -/
def patchJson (old : Json) : Option Json → Json
  | none => old
  | some .undefined => old
  | some v => v

/-- Merge an update payload into a stored row (`db.update(...).set(cache)`).
The `userId` field is always present in the payload the code passes. -/
def applyPatch (r : CacheRecord) (p : InsertUserCache) : CacheRecord :=
  { userId := p.userId,
    userData := patchJson r.userData p.userData,
    avatarUrl := patchJson r.avatarUrl p.avatarUrl,
    timestamp := p.timestamp.getD r.timestamp,
    isTerminated := p.isTerminated.getD r.isTerminated }

/-- Method `DatabaseStorage.updateUserCache` (storage.ts lines 66–74): update every
row matching `userId`, return the first updated row (`result[0]`). -/
def updateUserCache (store : List CacheRecord) (userId : String) (p : InsertUserCache) :
    List CacheRecord × Option CacheRecord :=
  (store.map (fun r => if r.userId = userId then applyPatch r p else r),
   (getUserCache store userId).map (fun r => applyPatch r p))

/-- Method `DatabaseStorage.addUserCache` (storage.ts lines 50–64): upsert — update
when a row for the key exists, otherwise insert.  A strict insert needs the
not-null columns `userData` and `timestamp`; `none` models the database
error thrown when they are absent.  `isTerminated` has column default
`false`; `avatarUrl` defaults to SQL `NULL`. -/
def addUserCache (store : List CacheRecord) (p : InsertUserCache) :
    Option (List CacheRecord × CacheRecord) :=
  match getUserCache store p.userId with
  | some _ =>
    match updateUserCache store p.userId p with
    | (s', some r) => some (s', r)
    | (_, none) => none
  | none =>
    match p.userData, p.timestamp with
    | some ud, some ts =>
      let r : CacheRecord :=
        { userId := p.userId,
          userData := ud,
          avatarUrl := (patchJson Json.null p.avatarUrl),
          timestamp := ts,
          isTerminated := p.isTerminated.getD (some false) }
      some (store ++ [r], r)
    | _, _ => none

/-- Lexicographic order on code points, the order the database applies to the
text `timestamp` column (ISO-8601 strings of equal format compare
chronologically under it). -/
def lexLe : List Char → List Char → Bool
  | [], _ => true
  | _ :: _, [] => false
  | a :: as, b :: bs =>
    if a.toNat < b.toNat then true
    else if b.toNat < a.toNat then false
    else lexLe as bs

def tsLe (a b : String) : Bool := lexLe a.data b.data

/-- Descending insertion by the text `timestamp` column. -/
def insertDescTs (e : SearchHistory) : List SearchHistory → List SearchHistory
  | [] => [e]
  | x :: xs =>
    if tsLe x.timestamp e.timestamp then e :: x :: xs else x :: insertDescTs e xs

/-- Sort by `timestamp` descending (the effect of `orderBy(desc(timestamp))`
on the text column). -/
def sortDescTs : List SearchHistory → List SearchHistory
  | [] => []
  | x :: xs => insertDescTs x (sortDescTs xs)

/-- Method `DatabaseStorage.getRecentSearches` (storage.ts lines 33–39):
`orderBy(desc(timestamp)).limit(limit)`, with default limit 10. -/
def getRecentSearches (hist : List SearchHistory) (limit : Nat := 10) :
    List SearchHistory :=
  (sortDescTs hist).take limit

/-! ### src/routes.ts — route handlers

Each upstream call is an oracle value: `.ok data` is a 2xx response's
`response.data`, `.error e` a thrown axios error (with `e.status` the
`error.response.status` when a response exists).  `Date` handling is
abstracted by `nowMs : Int` (`new Date().getTime()`), `nowIso : String`
(`new Date().toISOString()`) and a parameter `parseMs : String → Int`
(`new Date(s).getTime()` on stored timestamps). -/

/-- A thrown error as the catch blocks see it. -/
structure JsError where
  status : Option Nat
  message : String

/-- The upstream oracle and clock for one `GET /api/users/:userId` request. -/
structure ResolveEnv where
  primary : Except JsError Json
  avatar : Except JsError Json
  history : Except JsError Json
  friendsCount : Except JsError Json
  followersCount : Except JsError Json
  followingCount : Except JsError Json
  nowMs : Int
  nowIso : String

/-- Observable steps of one request, used to state call/write ordering. -/
inductive Event where
  | cacheRead (userId : String)
  | primaryFetch (userId : String)
  | validateOk
  | validateFail
  | avatarFetch (userId : String)
  | historyFetch (userId : String)
  | statsFetch (userId : String)
  | cacheWrite (p : InsertUserCache)

structure RouteResult where
  status : Nat
  body : Json
  store : List CacheRecord
  trace : List Event

/-- Avatar of the success path (routes.ts lines 44–55): validated fetch, any
failure (or an empty `data` array) degrades to `null`. -/
def successAvatarUrl (av : Except JsError Json) : Json :=
  match av with
  | .error _ => .null
  | .ok aj =>
    match robloxAvatarParse aj with
    | .error _ => .null
    | .ok [] => .null
    | .ok (x :: _) => .str x.imageUrl

/-- The nullable `isTerminated` column as `res.json` serializes it. -/
def jsonOfOptBool : Option Bool → Json
  | none => .null
  | some b => .bool b

/-- Previous usernames of the terminated branch (routes.ts lines 79–87):
`usernameHistoryResponse.data.data.map(item => item.name)`; any throw inside
the `try` leaves the initial `[]`. -/
def termPreviousUsernames : Except JsError Json → List Json
  | .error _ => []
  | .ok hj =>
    match jsMember hj "data" with
    | none => []
    | some (.arr items) =>
      match items.mapM (fun it => jsMember it "name") with
      | some names => names
      | none => []
    | some _ => []

/-- Stats of the terminated branch (routes.ts lines 90–110): `Promise.all`
over the three raw count calls, reading `.data.count` untyped; any failure or
throw leaves the initial all-zero object. -/
def termStats (f fo fg : Except JsError Json) : Json :=
  match f, fo, fg with
  | .ok jf, .ok jfo, .ok jfg =>
    match jsMember jf "count", jsMember jfo "count", jsMember jfg "count" with
    | some a, some b, some c =>
      Json.obj [("friends", a), ("followers", b), ("following", c)]
    | _, _, _ =>
      Json.obj [("friends", .num (.int 0)), ("followers", .num (.int 0)),
                ("following", .num (.int 0))]
  | _, _, _ =>
    Json.obj [("friends", .num (.int 0)), ("followers", .num (.int 0)),
              ("following", .num (.int 0))]

/-- Avatar of the terminated branch (routes.ts lines 113–123): raw access
guarded by `data.data && data.data.length > 0`; any throw leaves `null`. -/
def termAvatar : Except JsError Json → Json
  | .error _ => .null
  | .ok aj =>
    match jsMember aj "data" with
    | none => .null
    | some d =>
      if jsTruthy d && ((jsMember d "length").elim false jsGtZero) then
        match jsIndex0 d with
        | none => .null
        | some x =>
          match jsMember x "imageUrl" with
          | none => .null
          | some v => v
      else .null

/-- The terminated-account recovery branch (routes.ts lines 77–151). -/
def terminatedBranch (env : ResolveEnv) (store : List CacheRecord)
    (uid : String) (baseTrace : List Event) : RouteResult :=
  let prev := termPreviousUsernames env.history
  let stats := termStats env.friendsCount env.followersCount env.followingCount
  let av := termAvatar env.avatar
  let userData : Json := Json.obj
    [("id", .num (jsParseIntNum uid)),
     ("name", .str "Terminated Account"),
     ("displayName", .str "Terminated Account"),
     ("description", .str "This account has been terminated for violating Roblox Terms of Service."),
     ("isBanned", .bool true),
     ("previousUsernames", .arr prev),
     ("stats", stats)]
  let p : InsertUserCache :=
    { userId := uid, userData := some userData, avatarUrl := some av,
      timestamp := some env.nowIso, isTerminated := some (some true) }
  let store' := ((addUserCache store p).map Prod.fst).getD store
  { status := 200,
    body := Json.obj
      [("source", .str "api"), ("data", userData), ("avatarUrl", av),
       ("isTerminated", .bool true), ("stats", stats),
       ("previousUsernames", .arr prev)],
    store := store',
    trace := baseTrace ++
      [.historyFetch uid, .statsFetch uid, .avatarFetch uid, .cacheWrite p] }

/-- The outer catch block (routes.ts lines 74–157): a service-reported 400
enters the terminated recovery, anything else answers 500. -/
def catchBranch (env : ResolveEnv) (store : List CacheRecord) (uid : String)
    (e : JsError) (baseTrace : List Event) : RouteResult :=
  if e.status = some 400 then
    terminatedBranch env store uid baseTrace
  else
    { status := 500,
      body := Json.obj
        [("error", .str "Failed to fetch user data"), ("details", .str e.message)],
      store := store,
      trace := baseTrace }

/-- Fetch-validate-cache of a cache miss (routes.ts lines 36–73 plus the
catch). -/
def fetchPath (env : ResolveEnv) (store : List CacheRecord) (uid : String) :
    RouteResult :=
  match env.primary with
  | .error e => catchBranch env store uid e [.cacheRead uid, .primaryFetch uid]
  | .ok userData =>
    match robloxUserParse userData with
    | .error m =>
      catchBranch env store uid ⟨none, m⟩
        [.cacheRead uid, .primaryFetch uid, .validateFail]
    | .ok validated =>
      let avatarUrl := successAvatarUrl env.avatar
      let p : InsertUserCache :=
        { userId := uid, userData := some validated.toJson,
          avatarUrl := some avatarUrl, timestamp := some env.nowIso,
          isTerminated := some (some validated.isBanned) }
      let store' := ((addUserCache store p).map Prod.fst).getD store
      { status := 200,
        body := Json.obj
          [("source", .str "api"), ("data", validated.toJson),
           ("avatarUrl", avatarUrl), ("isTerminated", .bool validated.isBanned)],
        store := store',
        trace := [.cacheRead uid, .primaryFetch uid, .validateOk,
                  .avatarFetch uid, .cacheWrite p] }

/-- Route `GET /api/users/:userId` (routes.ts lines 19–158). -/
def resolveUser (parseMs : String → Int) (env : ResolveEnv)
    (store : List CacheRecord) (uid : String) : RouteResult :=
  match getUserCache store uid with
  | some rec =>
    if env.nowMs - parseMs rec.timestamp < 3600000 then
      { status := 200,
        body := Json.obj
          [("source", .str "cache"), ("data", rec.userData),
           ("avatarUrl", rec.avatarUrl),
           ("isTerminated", jsonOfOptBool rec.isTerminated)],
        store := store,
        trace := [.cacheRead uid] }
    else fetchPath env store uid
  | none => fetchPath env store uid

/-- Result of one `POST /api/users/by-username` request. -/
structure UResult where
  status : Nat
  body : Json
  hist : List SearchHistory

/-- Route `POST /api/users/by-username` (routes.ts lines 161–209).  The upstream
oracle is the `response.data` of the batch username lookup, or the thrown
error.  Untyped accesses inside the `try` that throw a `TypeError` fall into
the catch block, which appends the failure history entry. -/
def byUsernameHandler (hist : List SearchHistory) (username : String)
    (nowIso : String) (upstream : Except JsError Json) : UResult :=
  if username = "" then
    ⟨400, Json.obj [("error", .str "Username is required")], hist⟩
  else
    let h1 := hist ++ [⟨username, "username", nowIso, true⟩]
    let failed : String → UResult := fun msg =>
      ⟨500,
       Json.obj [("error", .str "Failed to fetch user ID"), ("details", .str msg)],
       h1 ++ [⟨username, "username", nowIso, false⟩]⟩
    match upstream with
    | .error e => failed e.message
    | .ok j =>
      match jsMember j "data" with
      | none => failed "TypeError"
      | some d =>
        match jsLenEqZero d with
        | none => failed "TypeError"
        | some true => ⟨404, Json.obj [("error", .str "User not found")], h1⟩
        | some false =>
          match jsIndex0 d with
          | none => failed "TypeError"
          | some x =>
            match jsMember x "id" with
            | none => failed "TypeError"
            | some v =>
              match jsToStringVal v with
              | none => failed "TypeError"
              | some uid => ⟨200, Json.obj [("userId", .str uid)], h1⟩

/-- Route `GET /api/users/:userId/stats` (routes.ts lines 229–256): `Promise.all`
over the three count calls, then three validations; any throw anywhere
answers the all-sentinel body with status 200. -/
def statsHandler (f fo fg : Except JsError Json) : Nat × Json :=
  match f, fo, fg with
  | .ok jf, .ok jfo, .ok jfg =>
    match robloxFriendsCountParse jf, robloxFriendsCountParse jfo,
          robloxFriendsCountParse jfg with
    | .ok a, .ok b, .ok c =>
      (200, Json.obj [("friends", .num (.int a)), ("followers", .num (.int b)),
                      ("following", .num (.int c))])
    | _, _, _ =>
      (200, Json.obj [("friends", .str "N/A"), ("followers", .str "N/A"),
                      ("following", .str "N/A")])
  | _, _, _ =>
    (200, Json.obj [("friends", .str "N/A"), ("followers", .str "N/A"),
                    ("following", .str "N/A")])

/-! ### Helper lemmas -/

theorem exceptBind_ok {α β : Type} {e : Except String α} {f : α → Except String β}
    {b : β} (h : (e >>= f) = .ok b) : ∃ a, e = .ok a ∧ f a = .ok b := by
  cases e with
  | error m => simp [Bind.bind, Except.bind] at h
  | ok a => exact ⟨a, rfl, by simpa [Bind.bind, Except.bind] using h⟩

theorem zNumber_ok {v : Json} {i : Int} (h : zNumber v = .ok i) :
    v = .num (.int i) := by
  cases v with
  | num n => cases n <;> simp_all [zNumber]
  | _ => simp [zNumber] at h

theorem zString_ok {v : Json} {s : String} (h : zString v = .ok s) :
    v = .str s := by
  cases v <;> simp_all [zString]

theorem patchJson_some {old v : Json} (h : v ≠ Json.undefined) :
    patchJson old (some v) = v := by
  cases v <;> simp_all [patchJson]

/-- When the cached entry is absent or stale, the handler proceeds to the
fetch path. -/
theorem resolveUser_stale (parseMs : String → Int) (env : ResolveEnv)
    (store : List CacheRecord) (uid : String)
    (h : ∀ r, getUserCache store uid = some r →
      ¬ (env.nowMs - parseMs r.timestamp < 3600000)) :
    resolveUser parseMs env store uid = fetchPath env store uid := by
  rcases hg : getUserCache store uid with _ | r
  · simp [resolveUser, hg]
  · simp [resolveUser, hg, h r hg]

theorem getUserCache_map_update (store : List CacheRecord) (p : InsertUserCache)
    {r : CacheRecord} (hg : getUserCache store p.userId = some r) :
    getUserCache
      (store.map (fun x => if x.userId = p.userId then applyPatch x p else x))
      p.userId = some (applyPatch r p) := by
  induction store with
  | nil => simp [getUserCache] at hg
  | cons x xs ih =>
    by_cases hx : x.userId = p.userId
    · have hr : r = x := by
        simp [getUserCache, List.find?, hx] at hg
        exact hg.symm
      subst hr
      simp [getUserCache, List.find?, hx, applyPatch]
    · have hg' : getUserCache xs p.userId = some r := by
        simpa [getUserCache, List.find?, hx] using hg
      simpa [getUserCache, List.find?, hx] using ih hg'

theorem getUserCache_append_single (store : List CacheRecord) {uid : String}
    (hg : getUserCache store uid = none) (r : CacheRecord) (hr : r.userId = uid) :
    getUserCache (store ++ [r]) uid = some r := by
  unfold getUserCache at *
  rw [List.find?_append, hg]
  simp [List.find?, hr]

/-- A full upsert payload always succeeds and leaves its row readable under
its key, in both the update and the insert branch. -/
theorem addUserCache_upsert (store : List CacheRecord) (p : InsertUserCache)
    {ud : Json} (hud : p.userData = some ud) (hne : ud ≠ Json.undefined)
    {ts : String} (hts : p.timestamp = some ts) :
    ∃ s' r, addUserCache store p = some (s', r) ∧
      r.userId = p.userId ∧ r.userData = ud ∧ r.timestamp = ts ∧
      (∀ itv, p.isTerminated = some itv → r.isTerminated = itv) ∧
      getUserCache s' p.userId = some r := by
  rcases hg : getUserCache store p.userId with _ | r0
  · refine ⟨store ++ [⟨p.userId, ud, patchJson Json.null p.avatarUrl, ts,
        p.isTerminated.getD (some false)⟩],
      ⟨p.userId, ud, patchJson Json.null p.avatarUrl, ts,
        p.isTerminated.getD (some false)⟩,
      ?_, rfl, rfl, rfl, ?_, ?_⟩
    · simp [addUserCache, hg, hud, hts]
    · intro itv hit; simp [hit]
    · exact getUserCache_append_single store hg _ rfl
  · refine ⟨_, applyPatch r0 p, ?_, rfl, ?_, ?_, ?_,
      getUserCache_map_update store p hg⟩
    · simp [addUserCache, hg, updateUserCache]
    · simp [applyPatch, hud, patchJson_some hne]
    · simp [applyPatch, hts]
    · intro itv hit; simp [applyPatch, hit]

/-- At most one cache row per `userId`. -/
def uniqueIds (store : List CacheRecord) : Prop :=
  store.Pairwise (fun a b => a.userId ≠ b.userId)

theorem addUserCache_uniqueIds {store : List CacheRecord} {p : InsertUserCache}
    {s' : List CacheRecord} {r : CacheRecord}
    (hu : uniqueIds store) (h : addUserCache store p = some (s', r)) :
    uniqueIds s' := by
  rcases hg : getUserCache store p.userId with _ | r0
  · rcases hud : p.userData with _ | ud
    · simp [addUserCache, hg, hud] at h
    rcases hts : p.timestamp with _ | ts
    · simp [addUserCache, hg, hud, hts] at h
    simp [addUserCache, hg, hud, hts] at h
    obtain ⟨hs, -⟩ := h
    subst hs
    have hnone : ∀ a ∈ store, ¬ (a.userId = p.userId) := by
      intro a ha
      have := List.find?_eq_none.mp hg a ha
      simpa using this
    refine List.pairwise_append.mpr ⟨hu, by simp [uniqueIds], ?_⟩
    intro a ha b hb
    simp at hb
    subst hb
    simpa using hnone a ha
  · simp [addUserCache, hg, updateUserCache] at h
    obtain ⟨hs, -⟩ := h
    subst hs
    have hfix : ∀ x : CacheRecord,
        ((if x.userId = p.userId then applyPatch x p else x)).userId = x.userId := by
      intro x
      by_cases hx : x.userId = p.userId
      · simp [hx, applyPatch]
      · simp [hx]
    refine List.pairwise_map.mpr (hu.imp ?_)
    intro a b hab
    rw [hfix a, hfix b]
    exact hab

theorem lexLe_total (as bs : List Char) : lexLe as bs = true ∨ lexLe bs as = true := by
  induction as generalizing bs with
  | nil => left; rfl
  | cons a as ih =>
    cases bs with
    | nil => right; rfl
    | cons b bs =>
      by_cases h1 : a.toNat < b.toNat
      · left; simp [lexLe, h1]
      · by_cases h2 : b.toNat < a.toNat
        · right; simp [lexLe, h2]
        · rcases ih bs with h | h
          · left; simp [lexLe, h1, h2, h]
          · right; simp [lexLe, h1, h2, h]

theorem lexLe_trans {as bs cs : List Char}
    (h1 : lexLe as bs = true) (h2 : lexLe bs cs = true) : lexLe as cs = true := by
  induction as generalizing bs cs with
  | nil => rfl
  | cons a as ih =>
    cases bs with
    | nil => simp [lexLe] at h1
    | cons b bs =>
      cases cs with
      | nil => simp [lexLe] at h2
      | cons c cs =>
        simp only [lexLe] at h1 h2 ⊢
        by_cases hab : a.toNat < b.toNat
        · by_cases hbc : b.toNat < c.toNat
          · have : a.toNat < c.toNat := Nat.lt_trans hab hbc
            simp [this]
          · by_cases hcb : c.toNat < b.toNat
            · simp [hbc, hcb] at h2
            · have hbceq : b.toNat = c.toNat := Nat.le_antisymm
                (Nat.le_of_not_lt hcb) (Nat.le_of_not_lt hbc)
              have : a.toNat < c.toNat := hbceq ▸ hab
              simp [this]
        · by_cases hba : b.toNat < a.toNat
          · simp [hab, hba] at h1
          · have habeq : a.toNat = b.toNat := Nat.le_antisymm
              (Nat.le_of_not_lt hba) (Nat.le_of_not_lt hab)
            by_cases hbc : b.toNat < c.toNat
            · have : a.toNat < c.toNat := habeq ▸ hbc
              simp [this]
            · by_cases hcb : c.toNat < b.toNat
              · simp [hbc, hcb] at h2
              · have hbceq : b.toNat = c.toNat := Nat.le_antisymm
                  (Nat.le_of_not_lt hcb) (Nat.le_of_not_lt hbc)
                have hac : ¬ a.toNat < c.toNat := by omega
                have hca : ¬ c.toNat < a.toNat := by omega
                rw [if_neg hab, if_neg hba] at h1
                rw [if_neg hbc, if_neg hcb] at h2
                rw [if_neg hac, if_neg hca]
                exact ih h1 h2

theorem tsLe_total (a b : String) : tsLe a b = true ∨ tsLe b a = true :=
  lexLe_total a.data b.data

theorem tsLe_trans {a b c : String} (h1 : tsLe a b = true) (h2 : tsLe b c = true) :
    tsLe a c = true := lexLe_trans h1 h2

/-- Retrieval order: entry `a` precedes entry `b` only if `b`'s timestamp is
at most `a`'s — i.e. the list is sorted by timestamp descending. -/
def DescByTs (a b : SearchHistory) : Prop := tsLe b.timestamp a.timestamp = true

theorem mem_insertDescTs {e y : SearchHistory} {l : List SearchHistory}
    (h : y ∈ insertDescTs e l) : y = e ∨ y ∈ l := by
  induction l with
  | nil => simpa [insertDescTs] using h
  | cons x xs ih =>
    by_cases hx : tsLe x.timestamp e.timestamp = true
    · simp [insertDescTs, hx] at h
      rcases h with h | h | h
      · exact .inl h
      · exact .inr (by simp [h])
      · exact .inr (by simp [h])
    · simp [insertDescTs, hx] at h
      rcases h with h | h
      · exact .inr (by simp [h])
      · rcases ih h with h' | h'
        · exact .inl h'
        · exact .inr (by simp [h'])

theorem pairwise_insertDescTs {e : SearchHistory} {l : List SearchHistory}
    (h : l.Pairwise DescByTs) : (insertDescTs e l).Pairwise DescByTs := by
  induction l with
  | nil => simp [insertDescTs, List.Pairwise]
  | cons x xs ih =>
    rcases List.pairwise_cons.mp h with ⟨hx, hxs⟩
    by_cases hguard : tsLe x.timestamp e.timestamp = true
    · rw [insertDescTs, if_pos hguard]
      refine List.pairwise_cons.mpr ⟨?_, h⟩
      intro y hy
      rcases List.mem_cons.mp hy with rfl | hy
      · exact hguard
      · exact tsLe_trans (hx y hy) hguard
    · rw [insertDescTs, if_neg hguard]
      refine List.pairwise_cons.mpr ⟨?_, ih hxs⟩
      intro y hy
      rcases mem_insertDescTs hy with rfl | hy'
      · rcases tsLe_total x.timestamp y.timestamp with ht | ht
        · exact absurd ht hguard
        · exact ht
      · exact hx y hy'

theorem pairwise_sortDescTs (l : List SearchHistory) :
    (sortDescTs l).Pairwise DescByTs := by
  induction l with
  | nil => simp [sortDescTs]
  | cons x xs ih => exact pairwise_insertDescTs ih

/-! ### Concrete fixtures used by witnesses and counterexamples -/

/-- A cached row for user `"7"`. -/
def sampleRecord : CacheRecord :=
  ⟨"7", Json.obj [("id", .num (.int 7))], .str "http://img", "t0", some false⟩

/-- An environment whose primary fetch reports the service 400 and whose
recovery sub-calls all fail. -/
def termFailEnv : ResolveEnv :=
  { primary := .error ⟨some 400, "Request failed with status code 400"⟩,
    avatar := .error ⟨none, "network error"⟩,
    history := .error ⟨none, "network error"⟩,
    friendsCount := .error ⟨none, "network error"⟩,
    followersCount := .error ⟨none, "network error"⟩,
    followingCount := .error ⟨none, "network error"⟩,
    nowMs := 0, nowIso := "t1" }

/-- The all-zero stats object of the terminated branch. -/
def zeroStatsJson : Json :=
  Json.obj [("friends", .num (.int 0)), ("followers", .num (.int 0)),
            ("following", .num (.int 0))]

/-- The profile the terminated branch synthesizes when every recovery
sub-call fails. -/
def termProfile (uid : String) : Json :=
  Json.obj
    [("id", .num (jsParseIntNum uid)),
     ("name", .str "Terminated Account"),
     ("displayName", .str "Terminated Account"),
     ("description", .str "This account has been terminated for violating Roblox Terms of Service."),
     ("isBanned", .bool true),
     ("previousUsernames", .arr []),
     ("stats", zeroStatsJson)]

/-! ### Claims -/

/-- C3: for every userId with a cached record whose timestamp is less than
one hour old, resolve returns immediately with source = "cache", serving the
stored profile, avatar URL and terminated flag verbatim, issues no upstream
calls (the trace holds only the cache read) and performs no cache write (the
store is unchanged). -/
theorem claim_C3_cache_hit (parseMs : String → Int) (env : ResolveEnv)
    (store : List CacheRecord) (uid : String) (rec : CacheRecord)
    (hg : getUserCache store uid = some rec)
    (hfresh : env.nowMs - parseMs rec.timestamp < 3600000) :
    resolveUser parseMs env store uid =
      { status := 200,
        body := Json.obj [("source", .str "cache"), ("data", rec.userData),
          ("avatarUrl", rec.avatarUrl),
          ("isTerminated", jsonOfOptBool rec.isTerminated)],
        store := store,
        trace := [Event.cacheRead uid] } := by
  simp [resolveUser, hg, hfresh]

theorem claim_C3_cache_hit_witness :
    getUserCache [sampleRecord] "7" = some sampleRecord ∧
    termFailEnv.nowMs - (fun _ => (0 : Int)) sampleRecord.timestamp < 3600000 ∧
    resolveUser (fun _ => 0) termFailEnv [sampleRecord] "7" =
      { status := 200,
        body := Json.obj [("source", .str "cache"),
          ("data", sampleRecord.userData), ("avatarUrl", sampleRecord.avatarUrl),
          ("isTerminated", jsonOfOptBool sampleRecord.isTerminated)],
        store := [sampleRecord],
        trace := [Event.cacheRead "7"] } :=
  ⟨rfl, by decide,
   claim_C3_cache_hit (fun _ => 0) termFailEnv [sampleRecord] "7" sampleRecord
     rfl (by decide)⟩

/-- C8: `getRecentSearches` returns at most `limit` entries, sorted by
timestamp descending, for every stored history and hence every insertion
order; the default limit is 10. -/
theorem claim_C8_recent_searches (hist : List SearchHistory) (limit : Nat) :
    (getRecentSearches hist limit).length ≤ limit ∧
    (getRecentSearches hist limit).Pairwise DescByTs ∧
    getRecentSearches hist = getRecentSearches hist 10 := by
  refine ⟨?_, ?_, rfl⟩
  · exact List.length_take_le ..
  · exact (pairwise_sortDescTs hist).sublist (List.take_sublist ..)

/-- C6: the stats aggregator answers the all-sentinel triple whenever any of
the three count fetches fails or fails validation, and the three integers
when all succeed and validate. -/
theorem claim_C6_stats_fail_together (f fo fg : Except JsError Json) :
    (((∃ e, f = .error e) ∨ (∃ e, fo = .error e) ∨ (∃ e, fg = .error e) ∨
      (∃ j m, f = .ok j ∧ robloxFriendsCountParse j = .error m) ∨
      (∃ j m, fo = .ok j ∧ robloxFriendsCountParse j = .error m) ∨
      (∃ j m, fg = .ok j ∧ robloxFriendsCountParse j = .error m)) →
      statsHandler f fo fg = (200, Json.obj [("friends", .str "N/A"),
        ("followers", .str "N/A"), ("following", .str "N/A")])) ∧
    (∀ jf jfo jfg a b c, f = .ok jf → fo = .ok jfo → fg = .ok jfg →
      robloxFriendsCountParse jf = .ok a → robloxFriendsCountParse jfo = .ok b →
      robloxFriendsCountParse jfg = .ok c →
      statsHandler f fo fg = (200, Json.obj [("friends", .num (.int a)),
        ("followers", .num (.int b)), ("following", .num (.int c))])) := by
  constructor
  · intro h
    rcases f with e | jf
    · simp [statsHandler]
    rcases fo with e | jfo
    · simp [statsHandler]
    rcases fg with e | jfg
    · simp [statsHandler]
    rcases hf : robloxFriendsCountParse jf with m | a
    · simp [statsHandler, hf]
    rcases hfo : robloxFriendsCountParse jfo with m | b
    · simp [statsHandler, hf, hfo]
    rcases hfg : robloxFriendsCountParse jfg with m | c
    · simp [statsHandler, hf, hfo, hfg]
    exfalso
    rcases h with ⟨e, he⟩ | ⟨e, he⟩ | ⟨e, he⟩ |
      ⟨j, m, hj, hm⟩ | ⟨j, m, hj, hm⟩ | ⟨j, m, hj, hm⟩ <;>
      simp_all
  · intro jf jfo jfg a b c h1 h2 h3 h4 h5 h6
    subst h1; subst h2; subst h3
    simp [statsHandler, h4, h5, h6]

theorem claim_C6_stats_fail_together_witness :
    (∃ e, (Except.error ⟨none, "network error"⟩ : Except JsError Json) = .error e) ∧
    statsHandler (.error ⟨none, "network error"⟩)
      (.ok (Json.obj [("count", .num (.int 2))]))
      (.ok (Json.obj [("count", .num (.int 3))])) =
      (200, Json.obj [("friends", .str "N/A"), ("followers", .str "N/A"),
        ("following", .str "N/A")]) :=
  ⟨⟨⟨none, "network error"⟩, rfl⟩,
   (claim_C6_stats_fail_together (.error ⟨none, "network error"⟩)
      (.ok (Json.obj [("count", .num (.int 2))]))
      (.ok (Json.obj [("count", .num (.int 3))]))).1
     (.inl ⟨⟨none, "network error"⟩, rfl⟩)⟩

/-- C1 (counterexample): the username route appends the optimistic
`success = true` entry before the upstream call.  With a lookup returning
zero matches the single appended entry is tagged `success = true`, not
`success = false` as the claim states; and with a throwing lookup two
entries are appended, not exactly one. -/
theorem claim_C1_counterexample :
    (byUsernameHandler [] "robloxuser123" "t0"
        (.ok (Json.obj [("data", Json.arr [])]))).hist =
      [⟨"robloxuser123", "username", "t0", true⟩] ∧
    (byUsernameHandler [] "robloxuser123" "t0"
        (.ok (Json.obj [("data", Json.arr [])]))).hist ≠
      [⟨"robloxuser123", "username", "t0", false⟩] ∧
    (byUsernameHandler [] "user1" "t0" (.error ⟨none, "network error"⟩)).hist.length
      = 2 := by
  refine ⟨rfl, by decide, rfl⟩

/-- C1 (amended): for every call with a non-empty username, one entry tagged
`success = true` is always appended first; if the upstream lookup throws
(or response handling throws), a second entry tagged `success = false` is
appended and the response is 500; if the lookup returns normally — a
successful match answered 200 as much as zero matches answered 404 —
exactly the one `success = true` entry is appended: every run ends with
either exactly one appended entry and a non-500 status, or exactly two and
status 500. -/
theorem claim_C1_search_history (hist : List SearchHistory)
    (username nowIso : String) (upstream : Except JsError Json)
    (hne : username ≠ "") :
    (∀ e, upstream = .error e →
      (byUsernameHandler hist username nowIso upstream).hist =
        hist ++ [⟨username, "username", nowIso, true⟩,
                 ⟨username, "username", nowIso, false⟩] ∧
      (byUsernameHandler hist username nowIso upstream).status = 500) ∧
    (∀ j, upstream = .ok j → jsMember j "data" = some (.arr []) →
      (byUsernameHandler hist username nowIso upstream).hist =
        hist ++ [⟨username, "username", nowIso, true⟩] ∧
      (byUsernameHandler hist username nowIso upstream).status = 404) ∧
    (∀ j d x v s, upstream = .ok j → jsMember j "data" = some d →
      jsLenEqZero d = some false → jsIndex0 d = some x →
      jsMember x "id" = some v → jsToStringVal v = some s →
      (byUsernameHandler hist username nowIso upstream).hist =
        hist ++ [⟨username, "username", nowIso, true⟩] ∧
      (byUsernameHandler hist username nowIso upstream).status = 200 ∧
      (byUsernameHandler hist username nowIso upstream).body =
        Json.obj [("userId", .str s)]) ∧
    (((byUsernameHandler hist username nowIso upstream).hist =
        hist ++ [⟨username, "username", nowIso, true⟩] ∧
      (byUsernameHandler hist username nowIso upstream).status ≠ 500) ∨
     ((byUsernameHandler hist username nowIso upstream).hist =
        hist ++ [⟨username, "username", nowIso, true⟩,
                 ⟨username, "username", nowIso, false⟩] ∧
      (byUsernameHandler hist username nowIso upstream).status = 500)) := by
  refine ⟨?_, ?_, ?_, ?_⟩
  · rintro e rfl
    simp [byUsernameHandler, if_neg hne]
  · rintro j rfl hm
    simp only [byUsernameHandler, if_neg hne, hm]
    refine ⟨rfl, ?_⟩
    simp [jsLenEqZero, jsMember, jsStrictEqZero]
  · rintro j d x v s rfl hm hl hi hx hv
    simp [byUsernameHandler, if_neg hne, hm, hl, hi, hx, hv]
  · rcases upstream with e | j
    · right
      simp [byUsernameHandler, if_neg hne]
    rcases hm : jsMember j "data" with _ | d
    · right; simp [byUsernameHandler, if_neg hne, hm]
    rcases hl : jsLenEqZero d with _ | b
    · right; simp [byUsernameHandler, if_neg hne, hm, hl]
    cases b
    · rcases hi : jsIndex0 d with _ | x
      · right; simp [byUsernameHandler, if_neg hne, hm, hl, hi]
      rcases hx : jsMember x "id" with _ | v
      · right; simp [byUsernameHandler, if_neg hne, hm, hl, hi, hx]
      rcases hv : jsToStringVal v with _ | s
      · right; simp [byUsernameHandler, if_neg hne, hm, hl, hi, hx, hv]
      · left; simp [byUsernameHandler, if_neg hne, hm, hl, hi, hx, hv]
    · left; simp [byUsernameHandler, if_neg hne, hm, hl]

theorem claim_C1_search_history_witness :
    ("robloxuser123" : String) ≠ "" ∧
    ((byUsernameHandler [] "robloxuser123" "t0"
        (.ok (Json.obj [("data",
          Json.arr [Json.obj [("id", .num (.int 456))]])]))).hist =
      [(⟨"robloxuser123", "username", "t0", true⟩ : SearchHistory)] ∧
     (byUsernameHandler [] "robloxuser123" "t0"
        (.ok (Json.obj [("data",
          Json.arr [Json.obj [("id", .num (.int 456))]])]))).status = 200 ∧
     (byUsernameHandler [] "robloxuser123" "t0"
        (.ok (Json.obj [("data",
          Json.arr [Json.obj [("id", .num (.int 456))]])]))).body =
      Json.obj [("userId", .str "456")]) :=
  ⟨by decide,
   (claim_C1_search_history [] "robloxuser123" "t0"
      (.ok (Json.obj [("data", Json.arr [Json.obj [("id", .num (.int 456))]])]))
      (by decide)).2.2.1
     (Json.obj [("data", Json.arr [Json.obj [("id", .num (.int 456))]])])
     (Json.arr [Json.obj [("id", .num (.int 456))]])
     (Json.obj [("id", .num (.int 456))])
     (.num (.int 456)) "456" rfl rfl rfl rfl rfl rfl⟩

/-- C4: an upsert with a payload that lists only some fields merges them
into any existing record — unlisted fields (in particular a previously
stored `userData`) retain their prior values — the store keeps at most one
record per userId, and with no existing record a (complete) payload inserts
a new record and returns it. -/
theorem claim_C4_upsert_merge (store : List CacheRecord) (p : InsertUserCache)
    (hu : uniqueIds store) :
    (∀ rec, getUserCache store p.userId = some rec →
      addUserCache store p =
        some (store.map (fun x => if x.userId = p.userId then applyPatch x p else x),
              applyPatch rec p) ∧
      (p.userData = none → (applyPatch rec p).userData = rec.userData) ∧
      (p.timestamp = none → (applyPatch rec p).timestamp = rec.timestamp) ∧
      (p.isTerminated = none → (applyPatch rec p).isTerminated = rec.isTerminated) ∧
      (∀ v, p.avatarUrl = some v → v ≠ Json.undefined →
        (applyPatch rec p).avatarUrl = v) ∧
      getUserCache
        (store.map (fun x => if x.userId = p.userId then applyPatch x p else x))
        p.userId = some (applyPatch rec p) ∧
      uniqueIds
        (store.map (fun x => if x.userId = p.userId then applyPatch x p else x))) ∧
    (getUserCache store p.userId = none →
      ∀ ud ts, p.userData = some ud → p.timestamp = some ts →
        ∃ r, addUserCache store p = some (store ++ [r], r) ∧
          r.userId = p.userId ∧ r.userData = ud ∧ r.timestamp = ts ∧
          getUserCache (store ++ [r]) p.userId = some r ∧
          uniqueIds (store ++ [r])) := by
  constructor
  · intro rec hg
    have hadd : addUserCache store p =
        some (store.map (fun x => if x.userId = p.userId then applyPatch x p else x),
              applyPatch rec p) := by
      simp [addUserCache, hg, updateUserCache]
    refine ⟨hadd, ?_, ?_, ?_, ?_, getUserCache_map_update store p hg,
      addUserCache_uniqueIds hu hadd⟩
    · intro h; simp [applyPatch, h, patchJson]
    · intro h; simp [applyPatch, h]
    · intro h; simp [applyPatch, h]
    · intro v hv hne; simp [applyPatch, hv, patchJson_some hne]
  · intro hg ud ts hud hts
    have hadd : addUserCache store p =
        some (store ++ [⟨p.userId, ud, patchJson Json.null p.avatarUrl, ts,
          p.isTerminated.getD (some false)⟩],
          ⟨p.userId, ud, patchJson Json.null p.avatarUrl, ts,
          p.isTerminated.getD (some false)⟩) := by
      simp [addUserCache, hg, hud, hts]
    exact ⟨_, hadd, rfl, rfl, rfl,
      getUserCache_append_single store hg _ rfl,
      addUserCache_uniqueIds hu hadd⟩

/-- The partial payload of the witness: only `userId` and `avatarUrl`. -/
def partialPayload : InsertUserCache :=
  ⟨"7", none, some (.str "http://img2"), none, none⟩

theorem claim_C4_upsert_merge_witness :
    uniqueIds [sampleRecord] ∧
    getUserCache [sampleRecord] partialPayload.userId = some sampleRecord ∧
    addUserCache [sampleRecord] partialPayload =
      some ([applyPatch sampleRecord partialPayload],
            applyPatch sampleRecord partialPayload) ∧
    (applyPatch sampleRecord partialPayload).userData = sampleRecord.userData ∧
    (applyPatch sampleRecord partialPayload).avatarUrl = .str "http://img2" := by
  have hu : uniqueIds [sampleRecord] := by simp [uniqueIds]
  have h := (claim_C4_upsert_merge [sampleRecord] partialPayload hu).1
    sampleRecord rfl
  exact ⟨hu, rfl, h.1, h.2.1 rfl, h.2.2.2.2.1 _ rfl (by simp)⟩

/-- C5: when the primary fetch (or its schema validation) fails without the
terminated-account 400 signal, the handler answers 500 with `error` and
`details`, leaves the store untouched and writes nothing; and on the success
path the cache write happens only after successful validation — in every
trace a `cacheWrite` is preceded by `validateOk`. -/
theorem claim_C5_fatal_no_write (parseMs : String → Int) (env : ResolveEnv)
    (store : List CacheRecord) (uid : String)
    (hstale : ∀ r, getUserCache store uid = some r →
      ¬ (env.nowMs - parseMs r.timestamp < 3600000)) :
    (∀ e, env.primary = .error e → e.status ≠ some 400 →
      resolveUser parseMs env store uid =
        { status := 500,
          body := Json.obj [("error", .str "Failed to fetch user data"),
                            ("details", .str e.message)],
          store := store,
          trace := [.cacheRead uid, .primaryFetch uid] }) ∧
    (∀ ud m, env.primary = .ok ud → robloxUserParse ud = .error m →
      resolveUser parseMs env store uid =
        { status := 500,
          body := Json.obj [("error", .str "Failed to fetch user data"),
                            ("details", .str m)],
          store := store,
          trace := [.cacheRead uid, .primaryFetch uid, .validateFail] }) ∧
    ((∃ ud v, env.primary = .ok ud ∧ robloxUserParse ud = .ok v) →
      ∀ pre q post, (resolveUser parseMs env store uid).trace =
        pre ++ Event.cacheWrite q :: post → Event.validateOk ∈ pre) := by
  rw [resolveUser_stale parseMs env store uid hstale]
  refine ⟨?_, ?_, ?_⟩
  · intro e he h400
    simp [fetchPath, he, catchBranch, h400]
  · intro ud m hok hm
    simp [fetchPath, hok, hm, catchBranch]
  · rintro ⟨ud, v, hok, hv⟩ pre q post htr
    simp only [fetchPath, hok, hv] at htr
    rcases pre with _ | ⟨a1, pre⟩
    · simp at htr
    rcases pre with _ | ⟨a2, pre⟩
    · simp at htr
    rcases pre with _ | ⟨a3, pre⟩
    · simp at htr
    rcases pre with _ | ⟨a4, pre⟩
    · simp at htr
    rcases pre with _ | ⟨a5, pre⟩
    · obtain ⟨h1, h2, h3, h4, -⟩ := by simpa using htr
      subst h3
      simp
    · simp at htr

/-- An environment whose primary fetch fails with a non-400 transport error. -/
def fatalEnv : ResolveEnv :=
  { primary := .error ⟨some 500, "Request failed with status code 500"⟩,
    avatar := .error ⟨none, "network error"⟩,
    history := .error ⟨none, "network error"⟩,
    friendsCount := .error ⟨none, "network error"⟩,
    followersCount := .error ⟨none, "network error"⟩,
    followingCount := .error ⟨none, "network error"⟩,
    nowMs := 0, nowIso := "t1" }

theorem claim_C5_fatal_no_write_witness :
    fatalEnv.primary = .error ⟨some 500, "Request failed with status code 500"⟩ ∧
    (⟨some 500, "Request failed with status code 500"⟩ : JsError).status ≠ some 400 ∧
    resolveUser (fun _ => 0) fatalEnv [] "42" =
      { status := 500,
        body := Json.obj [("error", .str "Failed to fetch user data"),
          ("details", .str "Request failed with status code 500")],
        store := [],
        trace := [.cacheRead "42", .primaryFetch "42"] } :=
  ⟨rfl, by decide,
   (claim_C5_fatal_no_write (fun _ => 0) fatalEnv [] "42"
      (by intro r h; simp [getUserCache] at h)).1 _ rfl (by decide)⟩

/-- Success inversion for the profile validator: a parsed user determines an
object input whose required and defaulted fields parsed as recorded. -/
theorem robloxUserParse_ok_inv {j : Json} {u : RobloxUser}
    (h : robloxUserParse j = .ok u) :
    ∃ fs, j = Json.obj fs ∧
      zNumber (jfLookup fs "id") = .ok u.id ∧
      zString (jfLookup fs "name") = .ok u.name ∧
      zOptD zString "" (jfLookup fs "description") = .ok u.description ∧
      zOptD zBool false (jfLookup fs "isBanned") = .ok u.isBanned ∧
      zOptD zBool false (jfLookup fs "hasVerifiedBadge") = .ok u.hasVerifiedBadge := by
  cases j with
  | obj fs =>
    refine ⟨fs, rfl, ?_⟩
    simp only [robloxUserParse] at h
    obtain ⟨i, hi, h⟩ := exceptBind_ok h
    obtain ⟨nm, hnm, h⟩ := exceptBind_ok h
    obtain ⟨dn, hdn, h⟩ := exceptBind_ok h
    obtain ⟨ds, hds, h⟩ := exceptBind_ok h
    obtain ⟨cr, hcr, h⟩ := exceptBind_ok h
    obtain ⟨ib, hib, h⟩ := exceptBind_ok h
    obtain ⟨ea, hea, h⟩ := exceptBind_ok h
    obtain ⟨hv, hhv, h⟩ := exceptBind_ok h
    obtain ⟨pv, hpv, h⟩ := exceptBind_ok h
    obtain ⟨st, hst, h⟩ := exceptBind_ok h
    have hu : u = ⟨i, nm, dn, ds, cr, ib, ea, hv, pv, st⟩ := by
      simpa [pure, Except.pure] using h.symm
    subst hu
    exact ⟨hi, hnm, hds, hib, hhv⟩
  | null => simp [robloxUserParse] at h
  | undefined => simp [robloxUserParse] at h
  | bool b => simp [robloxUserParse] at h
  | num n => simp [robloxUserParse] at h
  | str s => simp [robloxUserParse] at h
  | arr xs => simp [robloxUserParse] at h

/-- C7: validation fails whenever the required `id` or `name` field is
missing or of the wrong type (a non-object document also fails); on success
the absent defaulted fields come out as their defaults: description `""`,
`isBanned` false, `hasVerifiedBadge` false. -/
theorem claim_C7_user_schema (j : Json) :
    (((¬ ∃ fs i, j = Json.obj fs ∧ jfLookup fs "id" = .num (.int i)) ∨
      (¬ ∃ fs s, j = Json.obj fs ∧ jfLookup fs "name" = .str s)) →
      ∃ m, robloxUserParse j = .error m) ∧
    (∀ u, robloxUserParse j = .ok u →
      (∀ fs, j = Json.obj fs → jfLookup fs "description" = .undefined →
        u.description = "") ∧
      (∀ fs, j = Json.obj fs → jfLookup fs "isBanned" = .undefined →
        u.isBanned = false) ∧
      (∀ fs, j = Json.obj fs → jfLookup fs "hasVerifiedBadge" = .undefined →
        u.hasVerifiedBadge = false)) := by
  constructor
  · intro hbad
    rcases hp : robloxUserParse j with m | u
    · exact ⟨m, rfl⟩
    exfalso
    obtain ⟨fs, rfl, hi, hnm, -, -, -⟩ := robloxUserParse_ok_inv hp
    rcases hbad with hb | hb
    · exact hb ⟨fs, u.id, rfl, zNumber_ok hi⟩
    · exact hb ⟨fs, u.name, rfl, zString_ok hnm⟩
  · intro u hp
    obtain ⟨fs, rfl, hi, hnm, hds, hib, hhv⟩ := robloxUserParse_ok_inv hp
    refine ⟨?_, ?_, ?_⟩
    · intro fs' heq habs
      injection heq with heq'
      subst heq'
      rw [habs] at hds
      simpa [zOptD] using hds.symm
    · intro fs' heq habs
      injection heq with heq'
      subst heq'
      rw [habs] at hib
      simpa [zOptD] using hib.symm
    · intro fs' heq habs
      injection heq with heq'
      subst heq'
      rw [habs] at hhv
      simpa [zOptD] using hhv.symm

theorem claim_C7_user_schema_witness :
    (∃ m, robloxUserParse (Json.obj [("name", Json.str "bob")]) = .error m) ∧
    robloxUserParse (Json.obj [("id", Json.num (.int 1)), ("name", Json.str "bob")]) =
      .ok ⟨1, "bob", none, "", none, false, none, false, none, none⟩ ∧
    (⟨1, "bob", none, "", none, false, none, false, none, none⟩ : RobloxUser).description = "" ∧
    (⟨1, "bob", none, "", none, false, none, false, none, none⟩ : RobloxUser).isBanned = false :=
  ⟨(claim_C7_user_schema (Json.obj [("name", Json.str "bob")])).1
     (.inl (by rintro ⟨fs, i, heq, hl⟩; injection heq with heq'; subst heq';
               simp [jfLookup, List.filter] at hl)),
   rfl,
   ((claim_C7_user_schema
       (Json.obj [("id", Json.num (.int 1)), ("name", Json.str "bob")])).2
     ⟨1, "bob", none, "", none, false, none, false, none, none⟩ rfl).1 _ rfl
     (by simp [jfLookup, List.filter]),
   ((claim_C7_user_schema
       (Json.obj [("id", Json.num (.int 1)), ("name", Json.str "bob")])).2
     ⟨1, "bob", none, "", none, false, none, false, none, none⟩ rfl).2.1 _ rfl
     (by simp [jfLookup, List.filter])⟩

/-- C2: when the primary fetch reports the 400 terminated-account signal and
the username-history, all three stats counters, and the avatar recovery
sub-calls each fail, the handler answers 200 with `source = "api"` and the
synthesized profile (`isBanned = true`, name "Terminated Account", empty
previous usernames, all-zero stats), `avatarUrl = null`,
`isTerminated = true`, and upserts exactly that record into the cache. -/
theorem claim_C2_terminated_recovery (parseMs : String → Int) (env : ResolveEnv)
    (store : List CacheRecord) (uid : String) (e eh e1 e2 e3 ea : JsError)
    (hstale : ∀ r, getUserCache store uid = some r →
      ¬ (env.nowMs - parseMs r.timestamp < 3600000))
    (hp : env.primary = .error e) (h400 : e.status = some 400)
    (hh : env.history = .error eh)
    (hf1 : env.friendsCount = .error e1) (hf2 : env.followersCount = .error e2)
    (hf3 : env.followingCount = .error e3) (hav : env.avatar = .error ea) :
    (resolveUser parseMs env store uid).status = 200 ∧
    (resolveUser parseMs env store uid).body =
      Json.obj [("source", .str "api"), ("data", termProfile uid),
        ("avatarUrl", Json.null), ("isTerminated", .bool true),
        ("stats", zeroStatsJson), ("previousUsernames", .arr [])] ∧
    (∃ r, addUserCache store
        ⟨uid, some (termProfile uid), some Json.null, some env.nowIso,
         some (some true)⟩ =
        some ((resolveUser parseMs env store uid).store, r) ∧
      r.userData = termProfile uid ∧ r.isTerminated = some true ∧
      r.timestamp = env.nowIso ∧
      getUserCache (resolveUser parseMs env store uid).store uid = some r) := by
  have hprev : termPreviousUsernames env.history = [] := by rw [hh]; rfl
  have hstats : termStats env.friendsCount env.followersCount env.followingCount
      = zeroStatsJson := by rw [hf1, hf2, hf3]; rfl
  have havn : termAvatar env.avatar = Json.null := by rw [hav]; rfl
  have hres : resolveUser parseMs env store uid =
      terminatedBranch env store uid [.cacheRead uid, .primaryFetch uid] := by
    rw [resolveUser_stale parseMs env store uid hstale]
    simp [fetchPath, hp, catchBranch, h400]
  have hTB : terminatedBranch env store uid [.cacheRead uid, .primaryFetch uid] =
      { status := 200,
        body := Json.obj [("source", .str "api"), ("data", termProfile uid),
          ("avatarUrl", Json.null), ("isTerminated", .bool true),
          ("stats", zeroStatsJson), ("previousUsernames", .arr [])],
        store := ((addUserCache store
          ⟨uid, some (termProfile uid), some Json.null, some env.nowIso,
           some (some true)⟩).map Prod.fst).getD store,
        trace := [.cacheRead uid, .primaryFetch uid] ++
          [.historyFetch uid, .statsFetch uid, .avatarFetch uid,
           .cacheWrite ⟨uid, some (termProfile uid), some Json.null,
             some env.nowIso, some (some true)⟩] } := by
    simp only [terminatedBranch, hprev, hstats, havn, termProfile, zeroStatsJson]
  obtain ⟨s', r, hadd, hrid, hrud, hrts, hrit, hget⟩ :=
    addUserCache_upsert store
      ⟨uid, some (termProfile uid), some Json.null, some env.nowIso,
       some (some true)⟩
      rfl (by simp [termProfile]) rfl
  rw [hres, hTB]
  refine ⟨rfl, rfl, r, ?_, hrud, hrit _ rfl, hrts, ?_⟩
  · rw [hadd]
    rfl
  · rw [hadd]
    simpa using hget

theorem claim_C2_terminated_recovery_witness :
    termFailEnv.primary = .error ⟨some 400, "Request failed with status code 400"⟩ ∧
    ((⟨some 400, "Request failed with status code 400"⟩ : JsError).status = some 400) ∧
    ((resolveUser (fun _ => 0) termFailEnv [] "999").status = 200 ∧
     (resolveUser (fun _ => 0) termFailEnv [] "999").body =
       Json.obj [("source", .str "api"), ("data", termProfile "999"),
         ("avatarUrl", Json.null), ("isTerminated", .bool true),
         ("stats", zeroStatsJson), ("previousUsernames", .arr [])] ∧
     (∃ r, addUserCache [] ⟨"999", some (termProfile "999"), some Json.null,
         some termFailEnv.nowIso, some (some true)⟩ =
         some ((resolveUser (fun _ => 0) termFailEnv [] "999").store, r) ∧
       r.userData = termProfile "999" ∧ r.isTerminated = some true ∧
       r.timestamp = termFailEnv.nowIso ∧
       getUserCache (resolveUser (fun _ => 0) termFailEnv [] "999").store "999"
         = some r)) :=
  ⟨rfl, rfl,
   claim_C2_terminated_recovery (fun _ => 0) termFailEnv [] "999"
     ⟨some 400, "Request failed with status code 400"⟩ ⟨none, "network error"⟩
     ⟨none, "network error"⟩ ⟨none, "network error"⟩ ⟨none, "network error"⟩
     ⟨none, "network error"⟩
     (by intro r h; simp [getUserCache] at h) rfl rfl rfl rfl rfl rfl rfl⟩

/-- A string with no decimal digit after white-space and an optional sign
parses to `NaN`. -/
theorem jsParseInt_eq_none_of_noLeadingDigit {s : String}
    (h : noLeadingDigit s = true) : jsParseInt s = none := by
  unfold noLeadingDigit at h
  unfold jsParseInt
  rcases hh : (stripSign (s.data.dropWhile jsWs)).head? with _ | d
  · have hnil := List.head?_eq_none_iff.mp hh
    rw [hnil]
    simp [isHexPre, takeDigitVals]
  · rw [hh] at h
    have hd : ¬ ('0' ≤ d ∧ d ≤ '9') := of_decide_eq_true h
    obtain ⟨t, ht⟩ : ∃ t, stripSign (s.data.dropWhile jsWs) = d :: t := by
      rcases hcs : stripSign (s.data.dropWhile jsWs) with _ | ⟨a, t⟩
      · rw [hcs] at hh; simp at hh
      · rw [hcs] at hh
        simp at hh
        exact ⟨t, by rw [hh]⟩
    rw [ht]
    have hhex : isHexPre (d :: t) = false := by
      simp only [isHexPre]
      have hd0 : d ≠ '0' := by
        intro hc
        exact hd (by rw [hc]; exact ⟨le_refl _, by decide⟩)
      simp [hd0]
    rw [hhex]
    have : decDigit? d = none := by simp [decDigit?, hd]
    simp [takeDigitVals, this]

/-- C9 (amended): in the terminated-account recovery path the stored and
returned profile has `id = parseInt(userId)` and is never run through the
profile validator (with a `NaN` id it could not pass it); for every userId
that — after optional white-space and at most one sign character — does not
begin with a decimal digit, `parseInt` yields `NaN` and so does the stored
and returned id. -/
theorem claim_C9_terminated_id (parseMs : String → Int) (env : ResolveEnv)
    (store : List CacheRecord) (uid : String) (e : JsError)
    (hstale : ∀ r, getUserCache store uid = some r →
      ¬ (env.nowMs - parseMs r.timestamp < 3600000))
    (hp : env.primary = .error e) (h400 : e.status = some 400) :
    ∃ fs, jsMember (resolveUser parseMs env store uid).body "data" =
        some (Json.obj fs) ∧
      jfLookup fs "id" = Json.num (jsParseIntNum uid) ∧
      (∃ r, getUserCache (resolveUser parseMs env store uid).store uid = some r ∧
        r.userData = Json.obj fs) ∧
      (noLeadingDigit uid = true → jfLookup fs "id" = Json.num .nan) ∧
      (jsParseIntNum uid = .nan → ∃ m, robloxUserParse (Json.obj fs) = .error m) := by
  have hres : resolveUser parseMs env store uid =
      terminatedBranch env store uid [.cacheRead uid, .primaryFetch uid] := by
    rw [resolveUser_stale parseMs env store uid hstale]
    simp [fetchPath, hp, catchBranch, h400]
  rw [hres]
  refine ⟨[("id", .num (jsParseIntNum uid)),
    ("name", .str "Terminated Account"),
    ("displayName", .str "Terminated Account"),
    ("description", .str "This account has been terminated for violating Roblox Terms of Service."),
    ("isBanned", .bool true),
    ("previousUsernames", .arr (termPreviousUsernames env.history)),
    ("stats", termStats env.friendsCount env.followersCount env.followingCount)],
    ?_, ?_, ?_, ?_, ?_⟩
  · simp [terminatedBranch, jsMember, jfLookup]
  · simp [jfLookup]
  · obtain ⟨s', r, hadd, hrid, hrud, hrts, hrit, hget⟩ :=
      addUserCache_upsert store
        ⟨uid, some (Json.obj [("id", .num (jsParseIntNum uid)),
          ("name", .str "Terminated Account"),
          ("displayName", .str "Terminated Account"),
          ("description", .str "This account has been terminated for violating Roblox Terms of Service."),
          ("isBanned", .bool true),
          ("previousUsernames", .arr (termPreviousUsernames env.history)),
          ("stats", termStats env.friendsCount env.followersCount env.followingCount)]),
         some (termAvatar env.avatar), some env.nowIso, some (some true)⟩
        rfl (by simp) rfl
    refine ⟨r, ?_, hrud⟩
    simp only [terminatedBranch]
    rw [hadd]
    simpa using hget
  · intro h
    simp [jfLookup, jsParseIntNum, jsParseInt_eq_none_of_noLeadingDigit h]
  · intro hnan
    refine ⟨"expected number", ?_⟩
    simp [robloxUserParse, jfLookup, hnan, zNumber, Bind.bind, Except.bind]

theorem claim_C9_terminated_id_witness :
    noLeadingDigit "abc" = true ∧
    termFailEnv.primary = .error ⟨some 400, "Request failed with status code 400"⟩ ∧
    (∃ fs, jsMember (resolveUser (fun _ => 0) termFailEnv [] "abc").body "data" =
        some (Json.obj fs) ∧
      jfLookup fs "id" = Json.num (jsParseIntNum "abc") ∧
      (∃ r, getUserCache (resolveUser (fun _ => 0) termFailEnv [] "abc").store "abc"
          = some r ∧ r.userData = Json.obj fs) ∧
      (noLeadingDigit "abc" = true → jfLookup fs "id" = Json.num .nan) ∧
      (jsParseIntNum "abc" = .nan →
        ∃ m, robloxUserParse (Json.obj fs) = .error m)) :=
  ⟨by decide, rfl,
   claim_C9_terminated_id (fun _ => 0) termFailEnv [] "abc"
     ⟨some 400, "Request failed with status code 400"⟩
     (by intro r h; simp [getUserCache] at h) rfl rfl⟩

/-- C9 (counterexample): the userId `"-5"` does not begin with a decimal
numeral, yet the terminated branch stores and returns `id = -5`
(JavaScript's `parseInt` accepts a sign), not `NaN`. -/
theorem claim_C9_counterexample :
    beginsWithDigit "-5" = false ∧
    jsParseInt "-5" = some (-5) ∧
    jsMember (resolveUser (fun _ => 0) termFailEnv [] "-5").body "data" =
      some (termProfile "-5") ∧
    jsMember (termProfile "-5") "id" = some (Json.num (.int (-5))) ∧
    (resolveUser (fun _ => 0) termFailEnv [] "-5").store =
      [⟨"-5", termProfile "-5", Json.null, "t1", some true⟩] ∧
    Json.num (.int (-5)) ≠ Json.num .nan := by
  refine ⟨by decide, by decide, ?_, ?_, ?_, by simp⟩
  · rfl
  · rfl
  · rfl

/-- C10: a cache-branch response always has exactly the keys source, data,
avatarUrl, isTerminated — never top-level stats or previousUsernames — even
when the cached record is a terminated account, whereas the terminated
branch's fresh response carries six keys; hence resolving a terminated
account and then resolving it again within the freshness window returns
differently shaped bodies. -/
theorem claim_C10_response_shapes (parseMs : String → Int) (env1 env2 : ResolveEnv)
    (store : List CacheRecord) (uid : String) (e : JsError)
    (hstale : ∀ r, getUserCache store uid = some r →
      ¬ (env1.nowMs - parseMs r.timestamp < 3600000))
    (hp : env1.primary = .error e) (h400 : e.status = some 400)
    (hfresh : env2.nowMs - parseMs env1.nowIso < 3600000) :
    (∀ (env : ResolveEnv) (st : List CacheRecord) (rec : CacheRecord),
      getUserCache st uid = some rec →
      env.nowMs - parseMs rec.timestamp < 3600000 →
      (resolveUser parseMs env st uid).body.keys =
        ["source", "data", "avatarUrl", "isTerminated"]) ∧
    (resolveUser parseMs env1 store uid).body.keys =
      ["source", "data", "avatarUrl", "isTerminated", "stats",
       "previousUsernames"] ∧
    (resolveUser parseMs env2 (resolveUser parseMs env1 store uid).store
        uid).body.keys = ["source", "data", "avatarUrl", "isTerminated"] ∧
    (resolveUser parseMs env1 store uid).body.keys ≠
      (resolveUser parseMs env2 (resolveUser parseMs env1 store uid).store
        uid).body.keys := by
  have hcache : ∀ (env : ResolveEnv) (st : List CacheRecord) (rec : CacheRecord),
      getUserCache st uid = some rec →
      env.nowMs - parseMs rec.timestamp < 3600000 →
      (resolveUser parseMs env st uid).body.keys =
        ["source", "data", "avatarUrl", "isTerminated"] := by
    intro env st rec hg hf
    simp [resolveUser, hg, hf, Json.keys]
  have hres : resolveUser parseMs env1 store uid =
      terminatedBranch env1 store uid [.cacheRead uid, .primaryFetch uid] := by
    rw [resolveUser_stale parseMs env1 store uid hstale]
    simp [fetchPath, hp, catchBranch, h400]
  have hshape1 : (resolveUser parseMs env1 store uid).body.keys =
      ["source", "data", "avatarUrl", "isTerminated", "stats",
       "previousUsernames"] := by
    rw [hres]
    simp [terminatedBranch, Json.keys]
  obtain ⟨s', r, hadd, hrid, hrud, hrts, hrit, hget⟩ :=
    addUserCache_upsert store
      ⟨uid, some (Json.obj [("id", .num (jsParseIntNum uid)),
        ("name", .str "Terminated Account"),
        ("displayName", .str "Terminated Account"),
        ("description", .str "This account has been terminated for violating Roblox Terms of Service."),
        ("isBanned", .bool true),
        ("previousUsernames", .arr (termPreviousUsernames env1.history)),
        ("stats", termStats env1.friendsCount env1.followersCount
          env1.followingCount)]),
       some (termAvatar env1.avatar), some env1.nowIso, some (some true)⟩
      rfl (by simp) rfl
  have hstore : (resolveUser parseMs env1 store uid).store = s' := by
    rw [hres]
    simp only [terminatedBranch]
    rw [hadd]
    rfl
  have hget2 : getUserCache (resolveUser parseMs env1 store uid).store uid
      = some r := by
    rw [hstore]
    simpa using hget
  have hshape2 := hcache env2 _ r hget2 (by rw [hrts]; exact hfresh)
  refine ⟨hcache, hshape1, hshape2, ?_⟩
  rw [hshape1, hshape2]
  decide

theorem claim_C10_response_shapes_witness :
    termFailEnv.primary = .error ⟨some 400, "Request failed with status code 400"⟩ ∧
    termFailEnv.nowMs - (fun _ => (0 : Int)) termFailEnv.nowIso < 3600000 ∧
    ((resolveUser (fun _ => 0) termFailEnv [] "999").body.keys =
      ["source", "data", "avatarUrl", "isTerminated", "stats",
       "previousUsernames"] ∧
     (resolveUser (fun _ => 0) termFailEnv
        (resolveUser (fun _ => 0) termFailEnv [] "999").store "999").body.keys =
      ["source", "data", "avatarUrl", "isTerminated"] ∧
     (resolveUser (fun _ => 0) termFailEnv [] "999").body.keys ≠
      (resolveUser (fun _ => 0) termFailEnv
        (resolveUser (fun _ => 0) termFailEnv [] "999").store "999").body.keys) := by
  have h := claim_C10_response_shapes (fun _ => 0) termFailEnv termFailEnv [] "999"
    ⟨some 400, "Request failed with status code 400"⟩
    (by intro r hr; simp [getUserCache] at hr) rfl rfl (by decide)
  exact ⟨rfl, by decide, h.2.1, h.2.2.1, h.2.2.2⟩
